import Mathlib

/-!
Verification development for the matrix65 MEGA65 serial communicator.

The definitions below are a shallow embedding of the final library sources
(src/lib/serial.rs, src/lib/lib.rs, src/lib/io.rs and src/commands.rs).
The serial transport is modelled as the list of bytes it will deliver to
successive reads; a read of n bytes consumes the first n bytes of that list
and fails when fewer are available, exactly as read_exact does on a port
with a short timeout. Writes that elicit no data (CPU halt and resume, the
dump commands, the pre-dump monitor flush) are not part of the data flow
and are therefore not tracked inside read_memory; the continuation
commands of the dump loop are tracked through an explicit log because the
claims speak about them.
-/

namespace Matrix65

/-- Protocol level failures of a memory dump: a read that returned fewer
bytes than requested, a chunk that is not valid hexadecimal, or exhaustion
of the structural recursion fuel (proved unreachable below). -/
inductive ProtoErr
  | shortRead
  | invalidHex
  | outOfFuel
  deriving DecidableEq

/-- Value of one ASCII hexadecimal digit, as accepted by the hex crate
used by Vec::from_hex: 0-9, a-f and A-F. -/
def hexVal (c : Nat) : Option Nat :=
  if 0x30 ≤ c ∧ c ≤ 0x39 then some (c - 0x30)
  else if 0x61 ≤ c ∧ c ≤ 0x66 then some (c - 0x61 + 10)
  else if 0x41 ≤ c ∧ c ≤ 0x46 then some (c - 0x41 + 10)
  else none

/-- Decoding of an ASCII hexadecimal string into bytes, as done by
Vec::from_hex: two characters per byte, failure on an odd length or on a
character that is not a hexadecimal digit. -/
def fromHex : List Nat → Option (List Nat)
  | [] => some []
  | [_] => none
  | a :: b :: rest =>
    match hexVal a, hexVal b, fromHex rest with
    | some hi, some lo, some tail => some ((hi * 16 + lo) :: tail)
    | _, _, _ => none

/-- Model of read_exact over the pull stream: take exactly n bytes,
failing when the stream holds fewer. -/
def readExact (input : List Nat) (n : Nat) : Option (List Nat × List Nat) :=
  if n ≤ input.length then some (input.take n, input.drop n) else none

/-- Result of a successful memory dump: the accumulated bytes, the number
of 32-character chunk reads performed, and for every dump-continue command
sent the length the accumulator had at that moment. -/
structure DumpResult where
  bytes : List Nat
  chunks : Nat
  contLog : List Nat
  deriving DecidableEq

/-- The while loop of read_memory in src/lib/serial.rs: while the
accumulator holds fewer than len bytes, read exactly 32 ASCII characters,
decode them as hexadecimal, append the 16 decoded bytes, then send the
dump-continue command and discard its 18 byte header. The continue and the
header read happen on every iteration, after the append. The fuel argument
makes the recursion structural; read_memory passes fuel equal to len,
which is proved sufficient in dumpLoop_no_outOfFuel since every iteration
appends exactly 16 bytes. -/
def dumpLoop : Nat → List Nat → List Nat → Nat → Nat → List Nat →
    Except ProtoErr DumpResult
  | 0, _, acc, len, chunks, contLog =>
    if acc.length < len then .error .outOfFuel else .ok ⟨acc, chunks, contLog⟩
  | fuel + 1, input, acc, len, chunks, contLog =>
    if acc.length < len then
      match readExact input 32 with
      | none => .error .shortRead
      | some (chunk, rest) =>
        match fromHex chunk with
        | none => .error .invalidHex
        | some decoded =>
          match readExact rest 18 with
          | none => .error .shortRead
          | some (_, rest2) =>
            dumpLoop fuel rest2 (acc ++ decoded) len (chunks + 1)
              (contLog ++ [(acc ++ decoded).length])
    else
      .ok ⟨acc, chunks, contLog⟩

/-- Model of read_memory in src/lib/serial.rs. After the monitor flush and
the CPU halt (which exchange no dump data), the dump-start command is
written and a fixed 27 byte header is discarded; the chunk loop then runs
and the accumulated bytes are truncated to exactly len. The address is
only interpolated into the written command and does not influence the data
flow of the model. -/
def read_memory (input : List Nat) (address : Nat) (len : Nat) :
    Except ProtoErr DumpResult :=
  match readExact input 27 with
  | none => .error .shortRead
  | some (_, rest) =>
    match dumpLoop len rest [] len 0 [] with
    | .error e => .error e
    | .ok r => .ok ⟨r.bytes.take len, r.chunks, r.contLog⟩

theorem readExact_some {input : List Nat} {n : Nat} {out rest : List Nat}
    (h : readExact input n = some (out, rest)) :
    out.length = n ∧ rest = input.drop n ∧ n ≤ input.length := by
  unfold readExact at h
  split at h
  · rename_i hle
    injection h with h
    injection h with h1 h2
    refine ⟨?_, h2.symm, hle⟩
    rw [← h1, List.length_take]
    omega
  · exact absurd h (by simp)

theorem fromHex_length :
    ∀ (l d : List Nat), fromHex l = some d → l.length = 2 * d.length
  | [], d, h => by
    simp [fromHex] at h
    subst h
    simp
  | [_], _, h => by
    simp [fromHex] at h
  | a :: b :: rest, d, h => by
    unfold fromHex at h
    rcases ha : hexVal a with _ | hi <;> rw [ha] at h <;>
      rcases hb : hexVal b with _ | lo <;> rw [hb] at h <;>
        rcases hr : fromHex rest with _ | tail <;> rw [hr] at h <;>
          simp at h
    have := fromHex_length rest tail hr
    simp [← h]
    omega

/-- A successful run of the dump loop always accumulates at least the
requested number of bytes, because the loop only exits through the guard. -/
theorem dumpLoop_ok_le (fuel : Nat) :
    ∀ (input acc : List Nat) (len chunks : Nat) (contLog : List Nat)
      (r : DumpResult),
      dumpLoop fuel input acc len chunks contLog = .ok r →
      len ≤ r.bytes.length := by
  induction fuel with
  | zero =>
    intro input acc len chunks contLog r h
    unfold dumpLoop at h
    split at h
    · simp at h
    · rename_i hge
      injection h with h
      subst h
      show len ≤ acc.length
      omega
  | succ f ih =>
    intro input acc len chunks contLog r h
    unfold dumpLoop at h
    split at h
    · split at h
      · simp at h
      · split at h
        · simp at h
        · split at h
          · simp at h
          · exact ih _ _ _ _ _ _ h
    · rename_i hge
      injection h with h
      subst h
      show len ≤ acc.length
      omega

/-- The dump loop appends one entry to the continue log per chunk read, so
the log length tracks the chunk counter. -/
theorem dumpLoop_contLog_chunks (fuel : Nat) :
    ∀ (input acc : List Nat) (len chunks : Nat) (contLog : List Nat)
      (r : DumpResult),
      contLog.length = chunks →
      dumpLoop fuel input acc len chunks contLog = .ok r →
      r.contLog.length = r.chunks := by
  induction fuel with
  | zero =>
    intro input acc len chunks contLog r hinv h
    unfold dumpLoop at h
    split at h
    · simp at h
    · injection h with h
      subst h
      exact hinv
  | succ f ih =>
    intro input acc len chunks contLog r hinv h
    unfold dumpLoop at h
    split at h
    · split at h
      · simp at h
      · split at h
        · simp at h
        · split at h
          · simp at h
          · exact ih _ _ _ _ _ _ (by simp [hinv]) h
    · injection h with h
      subst h
      exact hinv

/-- With fuel at least the number of missing bytes the loop never runs out
of fuel: every iteration appends exactly 16 decoded bytes. -/
theorem dumpLoop_no_outOfFuel (fuel : Nat) :
    ∀ (input acc : List Nat) (len chunks : Nat) (contLog : List Nat),
      len ≤ acc.length + fuel →
      dumpLoop fuel input acc len chunks contLog ≠ .error .outOfFuel := by
  induction fuel with
  | zero =>
    intro input acc len chunks contLog hle h
    unfold dumpLoop at h
    split at h
    · rename_i hlt
      omega
    · simp at h
  | succ f ih =>
    intro input acc len chunks contLog hle h
    unfold dumpLoop at h
    split at h
    · split at h
      · simp at h
      · rename_i p heq1
        obtain ⟨hchunk, hrest, hin⟩ := readExact_some heq1
        split at h
        · simp at h
        · rename_i decoded heq2
          have hdec : decoded.length = 16 := by
            have := fromHex_length _ _ heq2
            omega
          split at h
          · simp at h
          · refine ih _ _ _ _ _ ?_ h
            simp [hdec]
            omega
    · simp at h

/-- Every successful read_memory returns exactly the requested number of
bytes: the loop overshoots to a chunk boundary and the result is truncated. -/
theorem read_memory_ok_length {input : List Nat} {address len : Nat}
    {r : DumpResult} (h : read_memory input address len = .ok r) :
    r.bytes.length = len := by
  unfold read_memory at h
  split at h
  · simp at h
  · split at h
    · simp at h
    · rename_i r0 heq2
      injection h with h
      subst h
      show (r0.bytes.take len).length = len
      have := dumpLoop_ok_le len _ [] len 0 [] r0 heq2
      simp [List.length_take]
      omega

/-- The fuel passed by read_memory is always sufficient, so the fuel
exhaustion error of the model is unreachable: read_memory behaves exactly
like the unbounded Rust loop. -/
theorem read_memory_no_outOfFuel (input : List Nat) (address len : Nat) :
    read_memory input address len ≠ .error .outOfFuel := by
  intro h
  unfold read_memory at h
  split at h
  · simp at h
  · split at h
    · rename_i e heq2
      injection h with h
      subst h
      exact dumpLoop_no_outOfFuel len _ [] len 0 [] (by simp) heq2
    · simp at h

/-- Fixed 27 byte header answering the dump-start command; its content is
discarded by read_memory. -/
def dumpHeader : List Nat := List.replicate 27 0x2e

/-- Fixed 18 byte header answering each dump-continue command; discarded. -/
def contHeader : List Nat := List.replicate 18 0x2e

/-- One protocol chunk: 32 ASCII hexadecimal characters, here the digit 0
repeated, decoding to 16 zero bytes. -/
def fakeChunkHex : List Nat := List.replicate 32 0x30

/-- Byte stream of a fake transport answering a dump-start and then each
dump-continue with exactly one 16 byte chunk, enough for two chunks. -/
def fakeInput20 : List Nat :=
  dumpHeader ++ fakeChunkHex ++ contHeader ++ fakeChunkHex ++ contHeader

/-- Byte stream of a fake transport serving exactly one chunk and the
header that follows the continue command sent after it. -/
def fakeInput16 : List Nat := dumpHeader ++ fakeChunkHex ++ contHeader

set_option maxRecDepth 10000

theorem fakeInput20_run :
    read_memory fakeInput20 0 20 =
      .ok ⟨List.replicate 20 0, 2, [16, 32]⟩ := by
  rfl

theorem fakeInput16_run :
    read_memory fakeInput16 0 16 =
      .ok ⟨List.replicate 16 0, 1, [16]⟩ := by
  rfl

/-- Byte stream of a fake transport that answers the dump-start with the
27 byte header but then delivers only 10 bytes where a 32 character chunk
is expected. -/
def shortInput10 : List Nat := dumpHeader ++ List.replicate 10 0x30

/-- Claim C1: for every address and requested length, a successful
read_memory returns a byte vector of exactly the requested length, bytes
beyond the request being truncated; and against a fake transport
answering each dump-continue with exactly one 16 byte chunk, a 20 byte
request performs exactly 2 chunk reads and returns a 20 byte block, not
32 bytes. -/
theorem C1_read_memory_exact_length :
    (∀ (input : List Nat) (address len : Nat) (r : DumpResult),
        read_memory input address len = .ok r → r.bytes.length = len) ∧
    read_memory fakeInput20 0 20 = .ok ⟨List.replicate 20 0, 2, [16, 32]⟩ :=
  ⟨fun _ _ _ _ h => read_memory_ok_length h, fakeInput20_run⟩

theorem C1_read_memory_exact_length_witness :
    (List.replicate 20 (0 : Nat)).length = 20 :=
  C1_read_memory_exact_length.1 fakeInput20 0 20 _
    C1_read_memory_exact_length.2

/-- Claim C2: a transport delivering fewer bytes than the 27 byte header
requires, or fewer than the 32 character chunk requires, or a chunk that
is not valid hexadecimal, makes read_memory fail with a protocol error;
a successful result is never short or padded. -/
theorem C2_read_memory_error_on_short_or_invalid :
    (∀ (input : List Nat) (address len : Nat), input.length < 27 →
        read_memory input address len = .error .shortRead) ∧
    (∀ (input : List Nat) (address len : Nat), 0 < len →
        27 ≤ input.length → input.length < 59 →
        read_memory input address len = .error .shortRead) ∧
    (∀ (input : List Nat) (address len : Nat), 0 < len →
        59 ≤ input.length → fromHex ((input.drop 27).take 32) = none →
        read_memory input address len = .error .invalidHex) ∧
    (∀ (input : List Nat) (address len : Nat) (decoded : List Nat),
        0 < len → 59 ≤ input.length → input.length < 77 →
        fromHex ((input.drop 27).take 32) = some decoded →
        read_memory input address len = .error .shortRead) ∧
    (∀ (input : List Nat) (address len : Nat) (r : DumpResult),
        read_memory input address len = .ok r → r.bytes.length = len) := by
  refine ⟨?_, ?_, ?_, ?_, fun _ _ _ _ h => read_memory_ok_length h⟩
  · intro input address len hlt
    unfold read_memory
    have h1 : readExact input 27 = none := by
      unfold readExact
      rw [if_neg]
      omega
    rw [h1]
  · intro input address len hlen h27 h59
    unfold read_memory
    have h1 : readExact input 27 = some (input.take 27, input.drop 27) := by
      unfold readExact
      rw [if_pos]
      omega
    rw [h1]
    obtain ⟨f, rfl⟩ : ∃ f, len = f + 1 := ⟨len - 1, by omega⟩
    unfold dumpLoop
    dsimp only
    rw [if_pos (by simp)]
    have h2 : readExact (input.drop 27) 32 = none := by
      unfold readExact
      rw [if_neg]
      rw [List.length_drop]
      omega
    rw [h2]
  · intro input address len hlen h59 hbad
    unfold read_memory
    have h1 : readExact input 27 = some (input.take 27, input.drop 27) := by
      unfold readExact
      rw [if_pos]
      omega
    rw [h1]
    obtain ⟨f, rfl⟩ : ∃ f, len = f + 1 := ⟨len - 1, by omega⟩
    unfold dumpLoop
    dsimp only
    rw [if_pos (by simp)]
    have h2 : readExact (input.drop 27) 32 =
        some ((input.drop 27).take 32, (input.drop 27).drop 32) := by
      unfold readExact
      rw [if_pos]
      rw [List.length_drop]
      omega
    rw [h2]
    dsimp only
    rw [hbad]
  · intro input address len decoded hlen h59 h77 hdec
    unfold read_memory
    have h1 : readExact input 27 = some (input.take 27, input.drop 27) := by
      unfold readExact
      rw [if_pos]
      omega
    rw [h1]
    obtain ⟨f, rfl⟩ : ∃ f, len = f + 1 := ⟨len - 1, by omega⟩
    unfold dumpLoop
    dsimp only
    rw [if_pos (by simp)]
    have h2 : readExact (input.drop 27) 32 =
        some ((input.drop 27).take 32, (input.drop 27).drop 32) := by
      unfold readExact
      rw [if_pos]
      rw [List.length_drop]
      omega
    rw [h2]
    dsimp only
    rw [hdec]
    dsimp only
    have h3 : readExact ((input.drop 27).drop 32) 18 = none := by
      unfold readExact
      rw [if_neg]
      rw [List.length_drop, List.length_drop]
      omega
    rw [h3]

theorem C2_read_memory_error_witness :
    read_memory shortInput10 0 16 = .error .shortRead :=
  C2_read_memory_error_on_short_or_invalid.2.1 shortInput10 0 16
    (by decide) (by decide) (by decide)

/-- Claim C6 counterexample: in the successful 16 byte read served by a
single chunk, a dump-continue command was sent, and at that moment the
accumulator already held 16 bytes, which is not fewer than the requested
16: the loop sends its continue after every chunk, also the final one. -/
theorem C6_continue_sent_when_full :
    read_memory fakeInput16 0 16 = .ok ⟨List.replicate 16 0, 1, [16]⟩ ∧
    ¬ (16 : Nat) < 16 :=
  ⟨fakeInput16_run, by omega⟩

/-- Claim C6 amended: after decoding a chunk and appending it to the
accumulator, read_memory always sends a dump-continue command and
discards its 18 byte header, regardless of whether more bytes are needed;
hence every successful run logs exactly one continue per chunk read. -/
theorem C6_continue_per_chunk :
    ∀ (input : List Nat) (address len : Nat) (r : DumpResult),
      read_memory input address len = .ok r →
      r.contLog.length = r.chunks := by
  intro input address len r h
  unfold read_memory at h
  split at h
  · simp at h
  · split at h
    · simp at h
    · rename_i r0 heq2
      injection h with h
      subst h
      show r0.contLog.length = r0.chunks
      exact dumpLoop_contLog_chunks len _ [] len 0 [] r0 rfl heq2

theorem C6_continue_per_chunk_witness : ([16, 32] : List Nat).length = 2 :=
  C6_continue_per_chunk fakeInput20 0 20 _ fakeInput20_run

/-- Load address for Commodore PRG files, from src/lib/lib.rs. -/
inductive LoadAddress
  | pet
  | commodore64
  | commodore16
  | commodore128
  | commodore65
  | custom (address : Nat)
  deriving DecidableEq

/-- Constructor LoadAddress::new from src/lib/lib.rs: a fixed table of
16 bit entry point values with a Custom fallback carrying the value. -/
def LoadAddress.new (address : Nat) : LoadAddress :=
  if address = 0x0401 then .pet
  else if address = 0x0801 then .commodore64
  else if address = 0x1001 then .commodore16
  else if address = 0x1c01 then .commodore128
  else if address = 0x2001 then .commodore65
  else .custom address

/-- Accessor LoadAddress::value from src/lib/lib.rs, returning the 16 bit
load address of each variant. -/
def LoadAddress.value : LoadAddress → Nat
  | .pet => 0x0401
  | .commodore64 => 0x0801
  | .commodore16 => 0x1001
  | .commodore128 => 0x1c01
  | .commodore65 => 0x2001
  | .custom address => address

/-- Claim C7: load address classification round trips, value of new a is
a for every 16 bit a, and the fixed table maps 0x0801 to Commodore64 and
0x2001 to Commodore65 while a value outside the table such as 0xc000
becomes Custom carrying that same value. -/
theorem C7_load_address_round_trip :
    (∀ a : Nat, a < 0x10000 → (LoadAddress.new a).value = a) ∧
    LoadAddress.new 0x0801 = .commodore64 ∧
    LoadAddress.new 0x2001 = .commodore65 ∧
    LoadAddress.new 0xc000 = .custom 0xc000 := by
  refine ⟨?_, rfl, rfl, rfl⟩
  intro a ha
  unfold LoadAddress.new
  split_ifs with h1 h2 h3 h4 h5 <;> simp_all [LoadAddress.value]

theorem C7_load_address_round_trip_witness :
    (LoadAddress.new 0xc000).value = 0xc000 :=
  C7_load_address_round_trip.1 0xc000 (by decide)

/-- Model of purge_load_address from src/lib/io.rs. The Rust function
slices bytes[0..2], which panics when the vector holds fewer than two
bytes; the none result models that panic. On success it returns the
little endian load address formed from the first two bytes together with
the vector with those two bytes removed. -/
def purge_load_address (bytes : List Nat) :
    Option (LoadAddress × List Nat) :=
  match bytes with
  | b0 :: b1 :: rest => some (LoadAddress.new (b0 + 256 * b1), rest)
  | _ => none

/-- Claim C9: a direct program file of at least two bytes is split into
the little endian 16 bit load address formed from its first two bytes,
which are removed, and the remaining payload returned unchanged; the
concrete file 01 08 aa bb yields the Commodore64 load address and the
payload aa bb. -/
theorem C9_purge_load_address :
    (∀ (b0 b1 : Nat) (rest : List Nat),
        purge_load_address (b0 :: b1 :: rest) =
          some (LoadAddress.new (b0 + 256 * b1), rest)) ∧
    purge_load_address [0x01, 0x08, 0xaa, 0xbb] =
      some (LoadAddress.commodore64, [0xaa, 0xbb]) :=
  ⟨fun _ _ _ => rfl, rfl⟩

/-- Claim C10: on an input of fewer than two bytes the load address
extraction panics on the out of range slice bytes[0..2], modelled by the
none result, instead of returning an error value; with at least two
bytes it never panics. -/
theorem C10_purge_short_panics :
    (∀ bytes : List Nat, bytes.length < 2 →
        purge_load_address bytes = none) ∧
    (∀ bytes : List Nat, 2 ≤ bytes.length →
        (purge_load_address bytes).isSome = true) := by
  constructor
  · intro bytes h
    match bytes with
    | [] => rfl
    | [_] => rfl
    | b0 :: b1 :: rest => exact absurd h (by simp)
  · intro bytes h
    match bytes with
    | [] => exact absurd h (by simp)
    | [_] => exact absurd h (by simp)
    | b0 :: b1 :: rest => rfl

theorem C10_purge_short_panics_witness :
    purge_load_address [0x08] = none ∧
    (purge_load_address [0x01, 0x08, 0xff]).isSome = true :=
  ⟨C10_purge_short_panics.1 [0x08] (by decide),
   C10_purge_short_panics.2 [0x01, 0x08, 0xff] (by decide)⟩

/-- Outcome of the poke command: either rejection by validation, or the
single write_memory transport call with its arguments. -/
inductive PokeOutcome
  | rejected
  | write (address : Nat) (bytes : List Nat)
  deriving DecidableEq

/-- Model of the validation in poke from src/commands.rs: the payload
length is cast to u16 and decremented with wrapping arithmetic, and the
request is rejected when checked addition of that offset to the start
address leaves the 16 bit domain; otherwise the write_memory transport
call is performed. The wrapping subtraction models release build
semantics of the length minus one computation. -/
def poke (address : Nat) (bytes : List Nat) : PokeOutcome :=
  if address + (bytes.length % 0x10000 + 0xffff) % 0x10000 ≤ 0xffff then
    .write address bytes
  else
    .rejected

/-- Claim C3 counterexample: a poke with start address 0xffff and a non
empty one byte payload passes validation and reaches the transport call,
because the computed end address 0xffff plus length minus one does not
leave the 16 bit domain; the claim that every non empty payload at
0xffff is rejected before any transport call is therefore false, and a
length zero write at address 0 also passes validation because the
wrapping decrement of the length produces 0xffff, which checked addition
to address 0 does not reject. -/
theorem C3_poke_ffff_one_byte_accepted :
    poke 0xffff [0x00] = .write 0xffff [0x00] ∧
    poke 0x0000 [] = .write 0x0000 [] := by
  exact ⟨rfl, rfl⟩

/-- Claim C3 amended: validation rejects a poke exactly when the start
address plus the wrapping 16 bit decrement of the payload length leaves
the 16 bit domain: for a non empty payload that is exactly when the end
address start plus length minus one overflows, so address 0xffff with a
single byte is accepted and with two or more bytes rejected, and a
length zero write is rejected exactly when the start address is nonzero;
rejection produces no write call and acceptance exactly one. -/
theorem C3_poke_validation :
    ∀ (address : Nat) (bytes : List Nat), address ≤ 0xffff →
      bytes.length < 0xffff →
      poke address bytes =
        if (bytes ≠ [] ∧ 0xffff < address + bytes.length - 1) ∨
            (bytes = [] ∧ 0 < address)
        then PokeOutcome.rejected
        else PokeOutcome.write address bytes := by
  intro address bytes ha hb
  unfold poke
  rcases bytes with _ | ⟨b, rest⟩
  · simp only [List.length_nil, ne_eq, not_true_eq_false, false_and,
      false_or, true_and]
    split_ifs <;> first | rfl | omega
  · simp only [List.length_cons, ne_eq, reduceCtorEq, not_false_eq_true,
      true_and, false_and, or_false]
    rw [List.length_cons] at hb
    split_ifs <;> first | rfl | omega

theorem C3_poke_validation_witness :
    poke 0xffff [0x00, 0x01] =
      if (([0x00, 0x01] : List Nat) ≠ [] ∧
          0xffff < 0xffff + ([0x00, 0x01] : List Nat).length - 1) ∨
          (([0x00, 0x01] : List Nat) = [] ∧ 0 < 0xffff)
      then PokeOutcome.rejected
      else PokeOutcome.write 0xffff [0x00, 0x01] :=
  C3_poke_validation 0xffff [0x00, 0x01] (by decide) (by decide)

/-- Possible outcomes of a mode probe: the boolean answer, a transport
error propagated by the question mark operator, or an index out of
bounds panic on the returned byte vector. -/
inductive ProbeResult
  | ok (b : Bool)
  | ioErr
  | indexPanic
  deriving DecidableEq

/-- Model of is_c65_mode from src/lib/serial.rs: a one byte read_memory
at the status address 0xffd3030 whose first byte is compared against the
sentinel 0x64. Indexing into the returned block is kept explicit, with
indexPanic modelling an out of bounds panic. -/
def is_c65_mode (input : List Nat) : ProbeResult :=
  match read_memory input 0xffd3030 1 with
  | .error _ => .ioErr
  | .ok r =>
    match r.bytes.get? 0 with
    | none => .indexPanic
    | some byte => .ok (byte == 0x64)

/-- Model of the default method is_c65_mode of the M65Communicator trait
in src/lib/lib.rs: it requests a zero length read_memory at the status
address 0xffd3030 and then indexes element 0 of the returned vector; the
indexPanic result models the Rust index out of bounds panic. The
communicator is abstracted as a function from address and length to an
optional byte vector, with none modelling a transport failure. -/
def M65Communicator.is_c65_mode
    (read_memory_impl : Nat → Nat → Option (List Nat)) : ProbeResult :=
  match read_memory_impl 0xffd3030 0 with
  | none => .ioErr
  | some bytes =>
    match bytes.get? 0 with
    | none => .indexPanic
    | some byte => .ok (byte == 0x64)

/-- A loopback read_memory double returning exactly the requested number
of zero bytes for every address. -/
def loopback_read_memory (_ : Nat) (n : Nat) : Option (List Nat) :=
  some (List.replicate n 0)

/-- Claim C4: the serial mode probe performs a one byte read at the
fixed status address and by construction never fails on a successful
read, returning the comparison of that byte against 0x64; the default
trait method however requests a zero byte read, so against every
read_memory implementation that returns exactly the requested number of
bytes it receives an empty vector and panics when indexing element 0,
instead of probing the sentinel as the claim states. -/
theorem C4_mode_probe :
    (∀ input : List Nat, is_c65_mode input ≠ .indexPanic) ∧
    (∀ read_memory_impl : Nat → Nat → Option (List Nat),
        (∀ a n bs, read_memory_impl a n = some bs → bs.length = n) →
        ∀ bs, read_memory_impl 0xffd3030 0 = some bs →
        M65Communicator.is_c65_mode read_memory_impl = .indexPanic) := by
  constructor
  · intro input h
    unfold is_c65_mode at h
    split at h
    · simp at h
    · rename_i r heq
      have hlen : r.bytes.length = 1 := read_memory_ok_length heq
      split at h
      · rename_i hnone
        rw [List.get?_eq_none] at hnone
        omega
      · simp at h
  · intro impl hexact bs hbs
    unfold M65Communicator.is_c65_mode
    rw [hbs]
    have h0 : bs.length = 0 := hexact _ _ _ hbs
    have hnil : bs = [] := List.length_eq_zero.mp h0
    subst hnil
    rfl

theorem C4_mode_probe_witness :
    is_c65_mode fakeInput16 ≠ .indexPanic ∧
    M65Communicator.is_c65_mode loopback_read_memory = .indexPanic :=
  ⟨C4_mode_probe.1 fakeInput16,
   C4_mode_probe.2 loopback_read_memory
     (fun _ n bs h => by
       unfold loopback_read_memory at h
       injection h with h
       rw [← h]
       simp)
     (List.replicate 0 0) rfl⟩

/-- First stage of type_key from src/lib/serial.rs: printable characters
that require the shift key are rewritten to the code point of the
unshifted key sharing their physical position, with the shift code 0x0f
as second matrix code; every other character keeps the sentinel 0x7f
there. The result pairs the rewritten key with the second matrix code. -/
def shiftRewrite (key : Nat) : Nat × Nat :=
  if key = 0x21 then (0x31, 0x0f)
  else if key = 0x22 then (0x32, 0x0f)
  else if key = 0x23 then (0x33, 0x0f)
  else if key = 0x24 then (0x34, 0x0f)
  else if key = 0x25 then (0x35, 0x0f)
  else if key = 0x28 then (0x38, 0x0f)
  else if key = 0x29 then (0x39, 0x0f)
  else if key = 0x3f then (0x2f, 0x0f)
  else if key = 0x3c then (0x2c, 0x0f)
  else if key = 0x3e then (0x2e, 0x0f)
  else (key, 0x7f)

/-- Second stage of type_key from src/lib/serial.rs: the match on the
key truncated to a byte, producing the first matrix code; the cursor
left and cursor up arms also override the second code with the shift
code, the F1 arm sets only the second code, and an unmapped byte leaves
the no key sentinel 0x7f as first code. -/
def matrixCode (b c2 : Nat) : Nat × Nat :=
  if b = 0x14 then (0x00, c2)
  else if b = 0x0d then (0x01, c2)
  else if b = 0x1d then (0x02, c2)
  else if b = 0xf7 then (0x03, c2)
  else if b = 0x9d then (0x02, 0x0f)
  else if b = 0x91 then (0x07, 0x0f)
  else if b = 0xf1 then (0x7f, 0x04)
  else if b = 0xf3 then (0x05, c2)
  else if b = 0xf5 then (0x06, c2)
  else if b = 0x11 then (0x07, c2)
  else if b = 0x33 then (0x08, c2)
  else if b = 0x77 then (0x09, c2)
  else if b = 0x61 then (0x0a, c2)
  else if b = 0x34 then (0x0b, c2)
  else if b = 0x7a then (0x0c, c2)
  else if b = 0x73 then (0x0d, c2)
  else if b = 0x65 then (0x0e, c2)
  else if b = 0x35 then (0x10, c2)
  else if b = 0x72 then (0x11, c2)
  else if b = 0x64 then (0x12, c2)
  else if b = 0x36 then (0x13, c2)
  else if b = 0x63 then (0x14, c2)
  else if b = 0x66 then (0x15, c2)
  else if b = 0x74 then (0x16, c2)
  else if b = 0x78 then (0x17, c2)
  else if b = 0x37 then (0x18, c2)
  else if b = 0x79 then (0x19, c2)
  else if b = 0x67 then (0x1a, c2)
  else if b = 0x38 then (0x1b, c2)
  else if b = 0x62 then (0x1c, c2)
  else if b = 0x68 then (0x1d, c2)
  else if b = 0x75 then (0x1e, c2)
  else if b = 0x76 then (0x1f, c2)
  else if b = 0x39 then (0x20, c2)
  else if b = 0x69 then (0x21, c2)
  else if b = 0x6a then (0x22, c2)
  else if b = 0x30 then (0x23, c2)
  else if b = 0x6d then (0x24, c2)
  else if b = 0x6b then (0x25, c2)
  else if b = 0x6f then (0x26, c2)
  else if b = 0x6e then (0x27, c2)
  else if b = 0x2b then (0x28, c2)
  else if b = 0x70 then (0x29, c2)
  else if b = 0x6c then (0x2a, c2)
  else if b = 0x2d then (0x2b, c2)
  else if b = 0x2e then (0x2c, c2)
  else if b = 0x3a then (0x2d, c2)
  else if b = 0x40 then (0x2e, c2)
  else if b = 0x2c then (0x2f, c2)
  else if b = 0x7d then (0x30, c2)
  else if b = 0x2a then (0x31, c2)
  else if b = 0x3b then (0x32, c2)
  else if b = 0x13 then (0x33, c2)
  else if b = 0x3d then (0x35, c2)
  else if b = 0x2f then (0x37, c2)
  else if b = 0x31 then (0x38, c2)
  else if b = 0x5f then (0x39, c2)
  else if b = 0x32 then (0x3b, c2)
  else if b = 0x20 then (0x3c, c2)
  else if b = 0x71 then (0x3e, c2)
  else if b = 0x03 then (0x3f, c2)
  else if b = 0x0c then (0x3f, c2)
  else (0x7f, c2)

/-- Model of type_key from src/lib/serial.rs: the shift rewriting stage
followed by the byte level matrix lookup on the key truncated to its low
byte, as the Rust cast to u8 does; the matrix code pair written to the
keyboard register is returned. -/
def type_key (key : Nat) : Nat × Nat :=
  matrixCode ((shiftRewrite key).1 % 256) (shiftRewrite key).2

/-- Scanner for one pass of str replace over a two character escape. The
fuel argument only makes the recursion structural: every step consumes at
least one character, so with fuel equal to the length of the text the
bare list case at fuel zero is never reached. -/
def replaceEscapeAux (pat : Nat) : Nat → List Nat → List Nat
  | _, [] => []
  | _, [a] => [a]
  | 0, l => l
  | fuel + 1, a :: b :: rest2 =>
    if a = 0x5c ∧ b = pat then 0x0d :: replaceEscapeAux pat fuel rest2
    else a :: replaceEscapeAux pat fuel (b :: rest2)

/-- One pass of str replace for a two character escape: a backslash
followed by the given letter is replaced by the carriage return 0x0d,
scanning left to right without overlap. -/
def replaceEscape (pat : Nat) (text : List Nat) : List Nat :=
  replaceEscapeAux pat text.length text

/-- Model of type_text from src/lib/serial.rs: the user written escape
sequences backslash r and backslash n are both normalised to the return
character 0x0d, then every character is encoded through type_key; the
matrix code pairs sent to the device are returned in order. Transport
writes, delays and the final release command carry no encoded data and
are omitted. -/
def type_text (text : List Nat) : List (Nat × Nat) :=
  (replaceEscape 0x6e (replaceEscape 0x72 text)).map type_key

/-- Claim C5 counterexample: the text consisting of the single uppercase
letter A, which is absent from the matrix table, encodes to the no key
sentinel pair, not to a distinct non sentinel pair as claimed. -/
theorem C5_type_text_A_is_sentinel :
    type_text [0x41] = [(0x7f, 0x7f)] := by rfl

/-- Claim C5 amended: the lowercase letter a and the escape sequence
backslash r each encode to a distinct non sentinel matrix code pair,
while unmapped characters, among them the uppercase letter A and the
emoji with code point 0x1f642, encode to the sentinel no key pair
without raising an error. -/
theorem C5_type_text_codes :
    type_text [0x61] = [(0x0a, 0x7f)] ∧
    type_text [0x5c, 0x72] = [(0x01, 0x7f)] ∧
    ((0x0a, 0x7f) : Nat × Nat) ≠ (0x7f, 0x7f) ∧
    ((0x01, 0x7f) : Nat × Nat) ≠ (0x7f, 0x7f) ∧
    ((0x0a, 0x7f) : Nat × Nat) ≠ (0x01, 0x7f) ∧
    type_text [0x1f642] = [(0x7f, 0x7f)] :=
  ⟨rfl, rfl, by decide, by decide, by decide, rfl⟩

/-- Observable device interactions of the transfer path. -/
inductive Action
  | resetDev
  | probeMode
  | keys (text : List Nat)
  | writeMem (address : Nat) (bytes : List Nat)
  deriving DecidableEq

/-- Keystroke text go64 return y return typed by go64 to invoke the
compatibility mode launcher and confirm its prompt. -/
def go64Text : List Nat := [0x67, 0x6f, 0x36, 0x34, 0x0d, 0x79, 0x0d]

/-- Keystroke text run return typed after a transfer when run is set. -/
def runText : List Nat := [0x72, 0x75, 0x6e, 0x0d]

/-- Model of go65 from src/lib/serial.rs: probe the mode and reset
unless already in C65 mode. The probed comparison of the status byte is
abstracted into the boolean c65mode. -/
def go65 (c65mode : Bool) : List Action :=
  .probeMode :: (if c65mode then [] else [.resetDev])

/-- Model of go64 from src/lib/serial.rs: probe the mode and type the
launcher sequence when currently in C65 mode. -/
def go64 (c65mode : Bool) : List Action :=
  .probeMode :: (if c65mode then [.keys go64Text] else [])

/-- Model of handle_prg_from_bytes from src/lib/serial.rs: an optional
caller requested reset, then dispatch on the load address: the C65 entry
point routes through go65, the C64 entry point through go64, and every
other load address returns the unsupported load address error; on the
two supported paths the payload is written at the load address value and
the run keystrokes are optionally typed. The result pairs the list of
device interactions performed, in order, with the error if any; the
transport is modelled as always succeeding. -/
def handle_prg_from_bytes (c65mode : Bool) (bytes : List Nat)
    (load_address : LoadAddress) (reset_before_run run : Bool) :
    List Action × Option String :=
  let pre := if reset_before_run then [Action.resetDev] else []
  match load_address with
  | .commodore65 =>
    (pre ++ go65 c65mode ++ [.writeMem load_address.value bytes] ++
      (if run then [.keys runText] else []), none)
  | .commodore64 =>
    (pre ++ go64 c65mode ++ [.writeMem load_address.value bytes] ++
      (if run then [.keys runText] else []), none)
  | _ => (pre, some "unsupported load address")

/-- Claim C8: a program whose load address is neither the C65 native nor
the C64 compatibility entry point is rejected with the unsupported load
address error, and the device interactions performed are exactly the
caller requested optional reset: no mode probe, no mode transition and
no memory write take place, so only the two supported entry points route
to the transition and write path. -/
theorem C8_unsupported_load_address :
    ∀ (c65mode : Bool) (bytes : List Nat) (la : LoadAddress)
      (reset_before_run run : Bool),
      la ≠ .commodore64 → la ≠ .commodore65 →
      handle_prg_from_bytes c65mode bytes la reset_before_run run =
        ((if reset_before_run then [Action.resetDev] else []),
          some "unsupported load address") := by
  intro c65mode bytes la rb run h64 h65
  cases la <;> first | rfl | exact absurd rfl h64 | exact absurd rfl h65

theorem C8_unsupported_load_address_witness :
    handle_prg_from_bytes true [0x00] .pet true false =
      ([Action.resetDev], some "unsupported load address") :=
  C8_unsupported_load_address true [0x00] .pet true false
    (by decide) (by decide)

end Matrix65
